import Mathlib

/-!
Verification development for the windowing and mobility-statistics engine of
`forest/jasmine/traj2stats.py` (function `gps_summaries`).

The embedding below translates the relevant blocks of the source into Lean
definitions.  Trajectory rows `[s, x0, y0, t0, x1, y1, t1, obs]` become the
structure `Seg`; the float arithmetic of the source is embedded as exact
rational arithmetic; the tabular output becomes lists of `Val` (a rational
number or the NaN sentinel).  Functions imported by the source from modules
outside the provided sources (`great_circle_dist`, `stamp2datetime`,
`num_sig_places`) enter the embedding as parameters or as abstracted inputs;
each use site notes this.
-/

namespace Traj2Stats

/-- One trajectory row `[s, x0, y0, t0, x1, y1, t1, obs]` of the `traj`
array: status (1 flight, 2 pause), starting lat/lon/timestamp, ending
lat/lon/timestamp, observed flag (1 observed, 0 imputed). -/
structure Seg where
  status : ℚ
  x0 : ℚ
  y0 : ℚ
  t0 : ℚ
  x1 : ℚ
  y1 : ℚ
  t1 : ℚ
  obs : ℚ
deriving DecidableEq

/-- Source line 205: `index_rows = (traj[:, 3] < end_time) * (traj[:, 6] > start_time)`,
the segment selection used for hourly windows and for daily windows without
the day/night split. -/
def selectPlain (traj : List Seg) (startTime endTime : ℚ) : List Seg :=
  traj.filter (fun s => decide (s.t0 < endTime ∧ s.t1 > startTime))

/-- Source line 216 (daytime sub-window, `i % 2 == 0`):
`index_rows = (traj[:, 3] <= t3) * (traj[:, 6] >= t2)` with non-strict bounds. -/
def selectDaytime (traj : List Seg) (t2 t3 : ℚ) : List Seg :=
  traj.filter (fun s => decide (s.t0 ≤ t3 ∧ s.t1 ≥ t2))

/-- Source lines 219-223 (nighttime sub-window, `i % 2 == 1`): the union of
`index1 = (traj[:,6] < t2) * (traj[:,3] < end_time) * (traj[:,6] > start_time)` and
`index2 = (traj[:,3] > t3) * (traj[:,3] < end_time) * (traj[:,6] > start_time)`. -/
def selectNighttime (traj : List Seg) (startTime t2 t3 endTime : ℚ) : List Seg :=
  traj.filter (fun s =>
    decide ((s.t1 < t2 ∧ s.t0 < endTime ∧ s.t1 > startTime) ∨
            (s.t0 > t3 ∧ s.t0 < endTime ∧ s.t1 > startTime)))

/-- The selection rule exactly as the specification words it: segments with
`t_start` strictly below the window end bound and `t_end` strictly above the
window start bound.  Kept separate from `selectPlain` so the two can be
compared per window kind. -/
def selectClaim (traj : List Seg) (startBound endBound : ℚ) : List Seg :=
  traj.filter (fun s => decide (s.t0 < endBound ∧ s.t1 > startBound))

/-- Source lines 236-248: the single-selected-segment clip.  Both endpoints
of the one selected segment are re-interpolated to the window bounds
`t0T`/`t1T` using the fractional offsets `p0`/`p1`; the original coordinates
are read out before being overwritten, exactly as the source saves
`x0, x1, y0, y1` first. -/
def clipSingle (s : Seg) (t0T t1T : ℚ) : Seg :=
  let p0 := (t0T - s.t0) / (s.t1 - s.t0)
  let p1 := (t1T - s.t0) / (s.t1 - s.t0)
  { s with
    x0 := (1 - p0) * s.x0 + p0 * s.x1
    y0 := (1 - p0) * s.y0 + p0 * s.y1
    t0 := t0T
    x1 := (1 - p1) * s.x0 + p1 * s.x1
    y1 := (1 - p1) * s.y0 + p1 * s.y1
    t1 := t1T }

/-- Source lines 277, 279-281: the first selected segment of a multi-segment
window has its start re-interpolated to `t0T`; here
`p0 = (t1 - t0T) / (t1 - t0)` counts from the end, so the blend is
`(1 - p0) * end + p0 * start`. -/
def clipFirst (s : Seg) (t0T : ℚ) : Seg :=
  let p0 := (s.t1 - t0T) / (s.t1 - s.t0)
  { s with
    x0 := (1 - p0) * s.x1 + p0 * s.x0
    y0 := (1 - p0) * s.y1 + p0 * s.y0
    t0 := t0T }

/-- Source lines 278, 282-284: the last selected segment of a multi-segment
window has its end re-interpolated to `t1T` with
`p1 = (t1T - t0) / (t1 - t0)`. -/
def clipLast (s : Seg) (t1T : ℚ) : Seg :=
  let p1 := (t1T - s.t0) / (s.t1 - s.t0)
  { s with
    x1 := (1 - p1) * s.x0 + p1 * s.x1
    y1 := (1 - p1) * s.y0 + p1 * s.y1
    t1 := t1T }

/-- Apply a function to the last element of a list (identity on the empty
list), used to place `clipLast` on the final selected segment. -/
def mapLast (f : Seg → Seg) : List Seg → List Seg
  | [] => []
  | [s] => [f s]
  | s :: rest => s :: mapLast f rest

/-- Source lines 276-284: the multi-segment branch of the clip, taken when
the number of selected segments differs from one: interpolate the start of
the first and the end of the last selected segment. -/
def clipMulti (sel : List Seg) (t0T t1T : ℚ) : List Seg :=
  mapLast (fun s => clipLast s t1T) (sel.modifyHead (fun s => clipFirst s t0T))

/-- Source lines 192-195: the calendar-window index `i2 = i // 2` when the
day/night split is on, else `i2 = i`. -/
def calendarIndex (split : Bool) (i : ℕ) : ℕ :=
  if split then i / 2 else i

/-- Source line 228: the guard `if i2 not in (0, no_windows - 1)` deciding
whether the endpoint re-interpolation runs for window `i` of a series of
`noW` windows.  Note that with the day/night split on, `noW` is the already
doubled window count while `i2` is the calendar index. -/
def clipApplied (split : Bool) (i noW : ℕ) : Bool :=
  decide (¬(calendarIndex split i = 0 ∨ calendarIndex split i = noW - 1))

/-- Source lines 203-205, 228, 236-248, 276-284 (the hourly / non-split daily
path): select the overlapping segments, then, when the guard `clipApplied`
holds, clip a single selected segment at both bounds or the first/last of
several selected segments at the respective bound. -/
def clipWindow (i noW : ℕ) (traj : List Seg) (startTime endTime : ℚ) : List Seg :=
  let temp := selectPlain traj startTime endTime
  if clipApplied false i noW then
    match temp with
    | [s] => [clipSingle s startTime endTime]
    | _ => clipMulti temp startTime endTime
  else temp

/-- Holds when the clip step of a window selects exactly one segment and
that segment has equal start and end timestamps, i.e. when the denominator
`temp[0, 6] - temp[0, 3]` of the interpolation fractions `p0`, `p1` at
source line 237 is zero. -/
def singleZeroDuration (traj : List Seg) (startTime endTime : ℚ) : Bool :=
  match selectPlain traj startTime endTime with
  | [s] => decide (s.t1 - s.t0 = 0)
  | _ => false

/-- A concrete trajectory containing a zero-duration pause at timestamp 5000
that is the only segment overlapping the interior window [3600, 7200). -/
def zeroDurTraj : List Seg :=
  [⟨2, 0, 0, 0, 0, 0, 3600, 1⟩,
   ⟨2, 1, 1, 5000, 1, 1, 5000, 1⟩,
   ⟨2, 2, 2, 7200, 2, 2, 10800, 1⟩]

/-- A cell of the summary table: a finite number or the `np.nan` sentinel. -/
inductive Val where
  | num (q : ℚ)
  | nan
deriving DecidableEq

/-- Addition of table cells with the float semantics of `np.nan`: a NaN
operand poisons the sum. -/
def addVal : Val → Val → Val
  | Val.num a, Val.num b => Val.num (a + b)
  | _, _ => Val.nan

/-- Source lines 413-433: the hourly row emitted when `obs_dur == 0`.  The
four identifying cells and a literal `0` for `obs_duration` are followed by
eleven NaN cells, plus one NaN per requested place category and one for the
`other` bucket. -/
def hourlyZeroRow (year month day hour : ℤ) (poi : Option (List String)) : List Val :=
  [Val.num (year : ℚ), Val.num (month : ℚ), Val.num (day : ℚ), Val.num (hour : ℚ),
   Val.num 0] ++
    List.replicate 11 Val.nan ++
    (match poi with
     | some ps => List.replicate (ps.length + 1) Val.nan
     | none => [])

/-- Source lines 518-543: the daily row emitted when `obs_dur == 0`.  The
three identifying cells and literal zeros for `obs_duration`, `obs_day`,
`obs_night` are followed by fifteen NaN cells, plus the NaN place cells. -/
def dailyZeroRow (year month day : ℤ) (poi : Option (List String)) : List Val :=
  [Val.num (year : ℚ), Val.num (month : ℚ), Val.num (day : ℚ),
   Val.num 0, Val.num 0, Val.num 0] ++
    List.replicate 15 Val.nan ++
    (match poi with
     | some ps => List.replicate (ps.length + 1) Val.nan
     | none => [])

/-- A value of the visit log: the `np.nan` sentinel or a list of tag
dictionaries (modelled by opaque identifiers). -/
inductive LogEntry where
  | nanE
  | tagList (ids : List ℕ)
deriving DecidableEq

/-- Source lines 444 and 545: the log value stored for a window whose
observed duration is zero is `np.nan`, not a list. -/
def zeroObsLogEntry : LogEntry := LogEntry.nanE

/-- Source lines 545 and 578-590: the `day/month/year` part of a daily log
key. -/
def plainDailyKey (day month year : ℤ) : String :=
  toString day ++ "/" ++ toString month ++ "/" ++ toString year

/-- Source lines 517-545 and 573-590: the key under which window `i` of a
daily run stores its log entry.  A zero-observed-duration window (line 545)
uses the plain key even when the day/night split is on; a non-degenerate
window with the split on appends `, datetime` or `, nighttime` according to
the parity of `i` (lines 573-586). -/
def dailyLogKey (split zeroObs : Bool) (i : ℕ) (day month year : ℤ) : String :=
  if zeroObs then plainDailyKey day month year
  else if split then
    plainDailyKey day month year ++ ", " ++
      (if i % 2 = 0 then "datetime" else "nighttime")
  else plainDailyKey day month year

/-- Source lines 160-168: hourly windows are 3600 seconds; lines 182-188:
daily windows are 86400 seconds and the count is doubled by the split.
Python floor division `//` is `Int.fdiv`. -/
def noWindows (hourlyOpt split : Bool) (startStamp endStamp : ℤ) : ℤ :=
  if hourlyOpt then (endStamp - startStamp).fdiv 3600
  else if split then 2 * ((endStamp - startStamp).fdiv 86400)
  else (endStamp - startStamp).fdiv 86400

/-- Source lines 592-596 (and 641-645): the place columns appended to the
schema, one per requested category plus the trailing `other` bucket. -/
def poiCols : Option (List String) → List String
  | none => []
  | some ps => ps ++ ["other"]

/-- Source lines 598-615 and 648-665: the hourly column schema. -/
def hourlyCols (poi : Option (List String)) : List String :=
  ["year", "month", "day", "hour", "obs_duration", "home_time", "dist_traveled",
   "max_dist_home", "total_flight_time", "av_flight_length", "sd_flight_length",
   "av_flight_duration", "sd_flight_duration", "total_pause_time",
   "av_pause_duration", "sd_pause_duration"] ++ poiCols poi

/-- Source lines 617-639 and 670-694: the daily column schema. -/
def dailyCols (poi : Option (List String)) : List String :=
  ["year", "month", "day", "obs_duration", "obs_day", "obs_night", "home_time",
   "dist_traveled", "max_dist_home", "radius", "diameter", "num_sig_places",
   "entropy", "total_flight_time", "av_flight_length", "sd_flight_length",
   "av_flight_duration", "sd_flight_duration", "total_pause_time",
   "av_pause_duration", "sd_pause_duration"] ++ poiCols poi

/-- The tabular result: column names plus one list of cells per row. -/
structure Table where
  cols : List String
  rows : List (List Val)
deriving DecidableEq

/-- Source lines 708-715: the four column names dropped by the day/night
merge. -/
def dropNames : List String :=
  ["obs_day_datetime", "obs_night_datetime", "obs_day_nighttime",
   "obs_night_nighttime"]

/-- Source lines 703-707: the column names after concatenating the Day rows
with the Night rows (from their fourth column on): the three identifying
names, then every non-identifying name suffixed `_datetime`, then every
non-identifying name suffixed `_nighttime`. -/
def suffixedCols (cols : List String) : List String :=
  cols.take 3 ++ (cols.drop 3).map (fun c => c ++ "_datetime")
             ++ (cols.drop 3).map (fun c => c ++ "_nighttime")

/-- Look a cell up by column name (NaN when the name is absent), the
name-based access pandas uses for `drop` and column arithmetic. -/
def lookupVal (key : String) (l : List (String × Val)) : Val :=
  match l.find? (fun p => p.1 == key) with
  | some p => p.2
  | none => Val.nan

/-- Source lines 700-722, row level: a Day row and the matching Night row
are joined (the Night row losing its three identifying cells), the four
`obs_day` / `obs_night` cells are dropped by name, and the combined
`obs_duration` cell, the sum of the two halves, is inserted at position 3. -/
def mergePair (cols : List String) (dayRow nightRow : List Val) : List Val :=
  let names := suffixedCols cols
  let vals := dayRow ++ nightRow.drop 3
  let zipped := names.zip vals
  let kept := zipped.filter (fun p => !(dropNames.contains p.1))
  let obsSum := addVal (lookupVal "obs_duration_datetime" zipped)
                       (lookupVal "obs_duration_nighttime" zipped)
  (kept.take 3).map Prod.snd ++ [obsSum] ++ (kept.drop 3).map Prod.snd

/-- Source lines 703-722, column level: the suffixed names with the four
dropped ones removed and `obs_duration` inserted at position 3. -/
def keptCols (cols : List String) : List String :=
  let kept := (suffixedCols cols).filter (fun c => !(dropNames.contains c))
  kept.take 3 ++ ["obs_duration"] ++ kept.drop 3

/-- Source lines 697-698: rows at even positions are the Day halves, rows at
odd positions the Night halves; adjacent rows pair up. -/
def pairUp : List (List Val) → List (List Val × List Val)
  | dayR :: nightR :: rest => (dayR, nightR) :: pairUp rest
  | _ => []

/-- Source lines 696-722: the day/night column-merge reshape of the
assembled table. -/
def mergeDayNight (t : Table) : Table :=
  { cols := keptCols t.cols
    rows := (pairUp t.rows).map (fun p => mergePair t.cols p.1 p.2) }

/-- Source lines 74-75, 190, 591-639, 640-694, 696-724: the shape of the
`gps_summaries` result.  `split` is forced off for hourly runs; a
non-positive window count yields the empty, fully-columned table instead of
running the per-window loop (whose rows enter here as the abstracted
parameter `loopRows`); the split reshape is applied last.  The timestamp
arithmetic of `stamp2datetime` / `datetime2stamp` (defined outside the
provided sources) is abstracted into the `startStamp` / `endStamp` inputs. -/
def gpsSummariesShape (hourlyOpt split0 : Bool) (poi : Option (List String))
    (startStamp endStamp : ℤ) (loopRows : List (List Val)) : Table :=
  let split := if hourlyOpt then false else split0
  let cols := if hourlyOpt then hourlyCols poi else dailyCols poi
  let base : Table :=
    if noWindows hourlyOpt split startStamp endStamp > 0 then ⟨cols, loopRows⟩
    else ⟨cols, []⟩
  if split then mergeDayNight base else base

/-- A pause cluster row of `pause_array`: `[lat, lon, minutes]`. -/
structure Cluster where
  x : ℚ
  y : ℚ
  dwell : ℚ
deriving DecidableEq

/-- Source lines 306-332, one iteration of the pause-clustering loop over
`pause_vec`.  `great_circle_dist` is defined in `data2mobmat.py`, outside the
provided sources; the loop only evaluates it pointwise, so it enters the
embedding as the parameter `dist` (arguments in source order:
`lat0 lon0 lat1 lon1`).  A pause within 5 meters of home is skipped; the
first surviving pause seeds `pause_array`; a pause farther than 5 meters from
every existing centroid (`np.min(...) > 5`, i.e. all distances exceed 5)
starts a new cluster; otherwise its dwell minutes are added to the dwell of
every cluster whose centroid is within 5 meters
(`pause_array[dist <= 5, -1] += (row[6] - row[3]) / 60`). -/
def clusterStep (dist : ℚ → ℚ → ℚ → ℚ → ℚ) (homeX homeY : ℚ)
    (acc : List Cluster) (s : Seg) : List Cluster :=
  if dist s.x0 s.y0 homeX homeY > 5 then
    if acc.isEmpty then [⟨s.x0, s.y0, (s.t1 - s.t0) / 60⟩]
    else if acc.all (fun c => decide (dist s.x0 s.y0 c.x c.y > 5)) then
      acc ++ [⟨s.x0, s.y0, (s.t1 - s.t0) / 60⟩]
    else
      acc.map (fun c =>
        if dist s.x0 s.y0 c.x c.y ≤ 5 then
          { c with dwell := c.dwell + (s.t1 - s.t0) / 60 } else c)
  else acc

/-- Source lines 303-332: the whole clustering pass, a left fold of
`clusterStep` over the pauses of the window in segment order. -/
def buildClusters (dist : ℚ → ℚ → ℚ → ℚ → ℚ) (homeX homeY : ℚ)
    (pauses : List Seg) : List Cluster :=
  pauses.foldl (clusterStep dist homeX homeY) []

/-- Add a dwell amount to the first cluster of the list whose centroid
realizes the distance `dmin`, leaving the others unchanged. -/
def addToFirstMin (dist : ℚ → ℚ → ℚ → ℚ → ℚ) (sx sy dw dmin : ℚ) :
    List Cluster → List Cluster
  | [] => []
  | c :: rest =>
    if dist sx sy c.x c.y = dmin then { c with dwell := c.dwell + dw } :: rest
    else c :: addToFirstMin dist sx sy dw dmin rest

/-- The smallest distance from the pause location to an existing centroid
(zero for the empty list, which the caller avoids). -/
def minCentroidDist (dist : ℚ → ℚ → ℚ → ℚ → ℚ) (sx sy : ℚ)
    (acc : List Cluster) : ℚ :=
  match acc.map (fun c => dist sx sy c.x c.y) with
  | [] => 0
  | d :: ds => ds.foldl min d

/-- The clustering step exactly as the claim words it: a later pause merges
its dwell time into the nearest existing cluster when it lies within 5
meters of that centroid, otherwise it seeds a new cluster. -/
def nearestStep (dist : ℚ → ℚ → ℚ → ℚ → ℚ) (homeX homeY : ℚ)
    (acc : List Cluster) (s : Seg) : List Cluster :=
  if dist s.x0 s.y0 homeX homeY > 5 then
    if acc.isEmpty then [⟨s.x0, s.y0, (s.t1 - s.t0) / 60⟩]
    else if acc.all (fun c => decide (dist s.x0 s.y0 c.x c.y > 5)) then
      acc ++ [⟨s.x0, s.y0, (s.t1 - s.t0) / 60⟩]
    else
      addToFirstMin dist s.x0 s.y0 ((s.t1 - s.t0) / 60)
        (minCentroidDist dist s.x0 s.y0 acc) acc
  else acc

/-- The clustering pass as the claim words it, for comparison with
`buildClusters`. -/
def buildClustersClaim (dist : ℚ → ℚ → ℚ → ℚ → ℚ) (homeX homeY : ℚ)
    (pauses : List Seg) : List Cluster :=
  pauses.foldl (nearestStep dist homeX homeY) []

/-- A distance function realizable by great-circle distance: the points used
below all lie on one meridian, where great-circle distance is proportional
to the latitude difference; the constant is absorbed into the coordinates so
that `lineDist` returns meters directly. -/
def lineDist (x0 y0 x1 y1 : ℚ) : ℚ := |x0 - x1| + |y0 - y1| * 0

/-- Three pauses on a line: seeds at 0 and 8 meters, then a pause at 3.5
meters, within 5 meters of both existing centroids (nearest: the first). -/
def overlapPauses : List Seg :=
  [⟨2, 0, 0, 0, 0, 0, 600, 1⟩,
   ⟨2, 8, 0, 600, 8, 0, 1200, 1⟩,
   ⟨2, 7/2, 0, 1200, 7/2, 0, 1500, 1⟩]

/-- Source line 508: a cluster is significant when its accumulated dwell
time `t` (seconds) satisfies `t / 60 > 15`. -/
def sigFilter (txy : List ℚ) : List ℚ :=
  txy.filter (fun t => decide (t / 60 > 15))

/-- Source line 508: `num_sig = sum(np.array(t_xy) / 60 > 15)`.  The dwell
list `t_xy` itself is produced by `num_sig_places` (defined in
`mobmat2traj.py`, outside the provided sources) and is abstracted as the
input here. -/
def numSig (txy : List ℚ) : ℕ := (sigFilter txy).length

/-- Source lines 509-511: normalize the significant dwells to probabilities
and compute `-sum(p * np.log(p + 0.00001))` with the natural logarithm. -/
noncomputable def entropyOf (txy : List ℚ) : ℝ :=
  let tsig := sigFilter txy
  let total : ℚ := tsig.sum
  Neg.neg ((tsig.map (fun t => ((t : ℚ) : ℝ) / ((total : ℚ) : ℝ) *
      Real.log (((t : ℚ) : ℝ) / ((total : ℚ) : ℝ) + 1 / 100000))).sum)

/-- External effects performed by `gps_summaries` itself, as visible in its
control flow. -/
inductive Effect where
  | stdoutWrite
  | overpassRequest
deriving DecidableEq

/-- Source lines 77-121 and 156/172: when a place-of-interest list is given
or the visit log is requested, `gps_summaries` builds an Overpass query and
issues the HTTP request itself (line 108) before computing anything; in
every run it writes a progress message to stdout.  The retry/sleep/exit
handling of lines 106-119 refines the single `overpassRequest` effect and
does not add effect kinds. -/
def gpsSummariesEffects (poi : Option (List String)) (saveLog : Bool) :
    List Effect :=
  (if poi.isSome || saveLog then [Effect.overpassRequest] else []) ++
    [Effect.stdoutWrite]

/-- A segment starting exactly at the upper daytime bound `t3 = 72000`
(20:00 of the day starting at stamp 0), selected by the daytime rule of the
source but not by the strict selection rule of the claim. -/
def daySeg : Seg := ⟨2, 0, 0, 72000, 0, 0, 72100, 1⟩

/-- A single observed flight spanning the whole interior window
[20, 80) of a three-window series. -/
def spanSeg : Seg := ⟨1, 0, 0, 0, 10, 10, 100, 1⟩

/-- The third pause of `overlapPauses` on its own: at 3.5 meters, within 5
meters of both centroids 0 and 8, nearest to the centroid at 0. -/
def midSeg : Seg := ⟨2, 7/2, 0, 1200, 7/2, 0, 1500, 1⟩

/-- C1: evaluation of the code at the failing input.  For the interior
hourly window [3600, 7200) of a three-window series over `zeroDurTraj`, the
clip step selects exactly one segment and that segment has equal start and
end timestamps, so the source reaches `p0 = (t0_temp - temp[0, 3]) /
(temp[0, 6] - temp[0, 3])` with a zero denominator; the third conjunct shows
the clip branch nevertheless applies the interpolation assignment to the
segment instead of leaving it unclipped, and no flag of any kind exists in
the output. -/
theorem zero_duration_interpolation_reached :
    singleZeroDuration zeroDurTraj 3600 7200 = true ∧
    clipApplied false 1 3 = true ∧
    clipWindow 1 3 zeroDurTraj 3600 7200 =
      [clipSingle ⟨2, 1, 1, 5000, 1, 1, 5000, 1⟩ 3600 7200] := by
  have hsel : selectPlain zeroDurTraj 3600 7200 =
      [⟨2, 1, 1, 5000, 1, 1, 5000, 1⟩] := by
    norm_num [selectPlain, zeroDurTraj, List.filter_cons]
  refine ⟨?_, by decide, ?_⟩
  · rw [singleZeroDuration, hsel]
    norm_num
  · rw [clipWindow, hsel]
    norm_num [clipApplied, calendarIndex]

/-- C2, counterexample: in the hourly zero-observed-duration row for
2019-03-08 hour 11, the fields after the four identifying ones are not all
the NaN sentinel: the `obs_duration` cell is the number 0. -/
theorem zero_obs_row_not_all_nan :
    ¬(∀ x ∈ (hourlyZeroRow 2019 3 8 11 none).drop 4, x = Val.nan) := by
  intro hall
  have hmem : Val.num 0 ∈ (hourlyZeroRow 2019 3 8 11 none).drop 4 := by
    simp [hourlyZeroRow]
  exact absurd (hall (Val.num 0) hmem) (by simp)

/-- C2, amended: a zero-observed-duration window emits a row whose
identifying fields are populated, whose `obs_duration` (and, daily,
`obs_day` / `obs_night`) cells are the number 0, and whose remaining cells
are all the NaN sentinel; the log entry is the NaN sentinel, which is not an
empty list. -/
theorem zero_obs_row_amended (y m d h : ℤ) (poi : Option (List String)) :
    (hourlyZeroRow y m d h poi).take 5 =
      [Val.num (y : ℚ), Val.num (m : ℚ), Val.num (d : ℚ), Val.num (h : ℚ),
       Val.num 0] ∧
    (∀ x ∈ (hourlyZeroRow y m d h poi).drop 5, x = Val.nan) ∧
    (dailyZeroRow y m d poi).take 6 =
      [Val.num (y : ℚ), Val.num (m : ℚ), Val.num (d : ℚ), Val.num 0,
       Val.num 0, Val.num 0] ∧
    (∀ x ∈ (dailyZeroRow y m d poi).drop 6, x = Val.nan) ∧
    zeroObsLogEntry = LogEntry.nanE ∧
    zeroObsLogEntry ≠ LogEntry.tagList [] := by
  refine ⟨rfl, ?_, rfl, ?_, rfl, by simp [zeroObsLogEntry]⟩
  · intro x hx
    cases poi with
    | none =>
      have hx2 : x ∈ List.replicate 11 Val.nan := by
        simpa [hourlyZeroRow] using hx
      exact List.eq_of_mem_replicate hx2
    | some ps =>
      have hx2 : x ∈ List.replicate 11 Val.nan ++
          List.replicate (ps.length + 1) Val.nan := by
        simpa [hourlyZeroRow] using hx
      rcases List.mem_append.mp hx2 with hmem | hmem <;>
        exact List.eq_of_mem_replicate hmem
  · intro x hx
    cases poi with
    | none =>
      have hx2 : x ∈ List.replicate 15 Val.nan := by
        simpa [dailyZeroRow] using hx
      exact List.eq_of_mem_replicate hx2
    | some ps =>
      have hx2 : x ∈ List.replicate 15 Val.nan ++
          List.replicate (ps.length + 1) Val.nan := by
        simpa [dailyZeroRow] using hx
      rcases List.mem_append.mp hx2 with hmem | hmem <;>
        exact List.eq_of_mem_replicate hmem

/-- C5, counterexample: for the daytime sub-window [28800, 72000) a segment
with `t_start` equal to the window end bound is selected by the source
(non-strict `t_start <= t3`), but the strict rule of the claim excludes it,
so the selected sets differ. -/
theorem daytime_selection_differs :
    selectDaytime [daySeg] 28800 72000 ≠ selectClaim [daySeg] 28800 72000 := by
  have h1 : selectDaytime [daySeg] 28800 72000 = [daySeg] := by
    norm_num [selectDaytime, daySeg, List.filter_cons]
  have h2 : selectClaim [daySeg] 28800 72000 = [] := by
    norm_num [selectClaim, daySeg, List.filter_cons]
  rw [h1, h2]
  simp

/-- C5, amended: plain (hourly and non-split daily) windows select exactly
by the strict rule of the claim; daytime sub-windows select by the
non-strict rule `t_start <= t3 AND t_end >= t2`; nighttime sub-windows
select the segments lying entirely before the 08:00 bound or starting after
the 20:00 bound, intersected with the strict rule for the whole day. -/
theorem selection_rules_amended :
    (∀ (traj : List Seg) (a b : ℚ), selectPlain traj a b = selectClaim traj a b) ∧
    (∀ (traj : List Seg) (t2 t3 : ℚ) (s : Seg),
      s ∈ selectDaytime traj t2 t3 ↔ s ∈ traj ∧ s.t0 ≤ t3 ∧ t2 ≤ s.t1) ∧
    (∀ (traj : List Seg) (a t2 t3 b : ℚ) (s : Seg),
      s ∈ selectNighttime traj a t2 t3 b ↔
        s ∈ traj ∧ ((s.t1 < t2 ∧ s.t0 < b ∧ a < s.t1) ∨
                    (t3 < s.t0 ∧ s.t0 < b ∧ a < s.t1))) := by
  refine ⟨fun traj a b => rfl, ?_, ?_⟩
  · intro traj t2 t3 s
    simp [selectDaytime, List.mem_filter, and_assoc]
  · intro traj a t2 t3 b s
    simp [selectNighttime, List.mem_filter, and_assoc]

/-- C9, counterexample: with a place-of-interest list supplied the function
itself performs the Overpass network request (so the query is not resolved
by the caller), and even without any such option its effect trace is not
empty (a progress message is written to stdout). -/
theorem core_effects_network :
    Effect.overpassRequest ∈ gpsSummariesEffects (some ["cafe"]) false ∧
    gpsSummariesEffects none false ≠ [] := by
  decide

/-- C9, amended: the summary computation issues the Overpass network
request itself exactly when a place-of-interest list is supplied or the
visit log is requested; with both disabled its only external effect is the
stdout progress write, and the embedded computation is a function of its
inputs, hence deterministic. -/
theorem core_effects_amended (poi : Option (List String)) (saveLog : Bool) :
    (Effect.overpassRequest ∈ gpsSummariesEffects poi saveLog ↔
      (poi.isSome = true ∨ saveLog = true)) ∧
    gpsSummariesEffects none false = [Effect.stdoutWrite] := by
  refine ⟨?_, rfl⟩
  cases poi <;> cases saveLog <;> simp [gpsSummariesEffects]

/-- C10: for a daily run with the day/night split on, a
zero-observed-duration sub-window stores its log entry under the plain
`day/month/year` key, identical for the Day half and the Night half of the
same calendar day, whereas non-degenerate sub-windows append the
`, datetime` / `, nighttime` suffix. -/
theorem degenerate_split_log_key (d m y : ℤ) (k : ℕ) :
    dailyLogKey true true (2 * k) d m y = plainDailyKey d m y ∧
    dailyLogKey true true (2 * k) d m y = dailyLogKey true true (2 * k + 1) d m y ∧
    dailyLogKey true false (2 * k) d m y = plainDailyKey d m y ++ ", datetime" ∧
    dailyLogKey true false (2 * k + 1) d m y =
      plainDailyKey d m y ++ ", nighttime" := by
  refine ⟨rfl, rfl, ?_, ?_⟩
  · have hmod : (2 * k) % 2 = 0 := by omega
    simp [dailyLogKey, hmod, String.append_assoc]
  · have hmod : (2 * k + 1) % 2 = 1 := by omega
    simp [dailyLogKey, hmod, String.append_assoc]

/-- Witness for `zero_obs_row_amended` at the concrete window 2019-03-08
hour 11 without place columns: the sixth cell of the hourly row is a member
of the tail and the theorem evaluates it to the NaN sentinel. -/
theorem zero_obs_row_amended_witness :
    Val.nan ∈ (hourlyZeroRow 2019 3 8 11 none).drop 5 ∧ Val.nan = Val.nan := by
  refine ⟨by simp [hourlyZeroRow], ?_⟩
  exact (zero_obs_row_amended 2019 3 8 11 none).2.1 Val.nan
    (by simp [hourlyZeroRow])

/-- C4, counterexample: with the day/night split on and a two-day series
(four windows), the guard of the clip step holds for window 3, which is the
last window of the overall series (3 = 4 - 1), so endpoint re-interpolation
is applied to the last window, not only to interior ones. -/
theorem clip_applied_last_window_split :
    clipApplied true 3 4 = true ∧ 3 = 4 - 1 := by
  exact ⟨by decide, rfl⟩

/-- C4, amended: the clip guard compares the calendar index (`i`, or `i / 2`
under the split) with 0 and with `no_windows - 1`, where `no_windows` is the
doubled count under the split; without the split this is exactly the
interior windows.  For every window passing the guard whose selection is a
single segment spanning both bounds, the clipped segment starts at the
window start, ends at the window end, has duration exactly the window
length, and carries the linear-blend coordinates
`(1 - p) * start + p * end` with `p = (boundary - t0) / (t1 - t0)`. -/
theorem interior_clip_amended :
    (∀ i noW : ℕ, clipApplied false i noW = true ↔ (i ≠ 0 ∧ i ≠ noW - 1)) ∧
    (∀ i noW : ℕ, clipApplied true i noW = true ↔
      (i / 2 ≠ 0 ∧ i / 2 ≠ noW - 1)) ∧
    (∀ (i noW : ℕ) (traj : List Seg) (a b : ℚ) (s : Seg),
      clipApplied false i noW = true →
      selectPlain traj a b = [s] →
      s.t0 ≤ a → b ≤ s.t1 → a < b →
      clipWindow i noW traj a b = [clipSingle s a b] ∧
      (clipSingle s a b).t0 = a ∧
      (clipSingle s a b).t1 = b ∧
      (clipSingle s a b).t1 - (clipSingle s a b).t0 = b - a ∧
      (clipSingle s a b).x0 =
        (1 - (a - s.t0) / (s.t1 - s.t0)) * s.x0 +
          (a - s.t0) / (s.t1 - s.t0) * s.x1 ∧
      (clipSingle s a b).y0 =
        (1 - (a - s.t0) / (s.t1 - s.t0)) * s.y0 +
          (a - s.t0) / (s.t1 - s.t0) * s.y1 ∧
      (clipSingle s a b).x1 =
        (1 - (b - s.t0) / (s.t1 - s.t0)) * s.x0 +
          (b - s.t0) / (s.t1 - s.t0) * s.x1 ∧
      (clipSingle s a b).y1 =
        (1 - (b - s.t0) / (s.t1 - s.t0)) * s.y0 +
          (b - s.t0) / (s.t1 - s.t0) * s.y1) := by
  refine ⟨?_, ?_, ?_⟩
  · intro i noW
    simp [clipApplied, calendarIndex, not_or]
  · intro i noW
    simp [clipApplied, calendarIndex, not_or]
  · intro i noW traj a b s happ hsel h1 h2 h3
    refine ⟨?_, rfl, rfl, rfl, rfl, rfl, rfl, rfl⟩
    rw [clipWindow, hsel]
    simp [happ]

/-- Witness for `interior_clip_amended`: the interior window [20, 80) of a
three-window series over a single spanning flight segment. -/
theorem interior_clip_amended_witness :
    clipWindow 1 3 [spanSeg] 20 80 = [clipSingle spanSeg 20 80] ∧
    (clipSingle spanSeg 20 80).t1 - (clipSingle spanSeg 20 80).t0 = 60 := by
  have h := interior_clip_amended.2.2 1 3 [spanSeg] 20 80 spanSeg (by decide)
    (by norm_num [selectPlain, spanSeg, List.filter_cons])
    (by norm_num [spanSeg]) (by norm_num [spanSeg]) (by norm_num)
  refine ⟨h.1, ?_⟩
  rw [h.2.2.2.1]
  norm_num

/-- C6: the window count is the floor of the span over the window length
(3600 seconds hourly, 86400 daily), doubled by the day/night split for
daily runs; whenever the count is not positive, the result is the empty
table carrying the full schema of the requested resolution (including the
place and `other` columns, and the reshaped schema when the split is on),
and the abstracted loop rows are ignored. -/
theorem window_count_and_empty_schema :
    (∀ a b : ℤ, noWindows true false a b = (b - a).fdiv 3600) ∧
    (∀ a b : ℤ, noWindows false false a b = (b - a).fdiv 86400) ∧
    (∀ a b : ℤ, noWindows false true a b = 2 * (b - a).fdiv 86400) ∧
    (∀ (split : Bool) (poi : Option (List String)) (a b : ℤ)
       (rows : List (List Val)),
      noWindows true false a b ≤ 0 →
      gpsSummariesShape true split poi a b rows = ⟨hourlyCols poi, []⟩) ∧
    (∀ (poi : Option (List String)) (a b : ℤ) (rows : List (List Val)),
      noWindows false false a b ≤ 0 →
      gpsSummariesShape false false poi a b rows = ⟨dailyCols poi, []⟩) ∧
    (∀ (poi : Option (List String)) (a b : ℤ) (rows : List (List Val)),
      noWindows false true a b ≤ 0 →
      gpsSummariesShape false true poi a b rows =
        ⟨keptCols (dailyCols poi), []⟩) := by
  refine ⟨fun a b => rfl, fun a b => rfl, fun a b => rfl, ?_, ?_, ?_⟩
  · intro split poi a b rows h
    have h2 : ¬ noWindows true false a b > 0 := not_lt.mpr h
    simp [gpsSummariesShape, h2]
  · intro poi a b rows h
    have h2 : ¬ noWindows false false a b > 0 := not_lt.mpr h
    simp [gpsSummariesShape, h2]
  · intro poi a b rows h
    have h2 : ¬ noWindows false true a b > 0 := not_lt.mpr h
    simp [gpsSummariesShape, h2, mergeDayNight, pairUp]

/-- Witness for `window_count_and_empty_schema`: a span ending before it
starts (stamps 100 to 50) yields the empty daily split table and the empty
hourly table. -/
theorem window_count_and_empty_schema_witness :
    gpsSummariesShape false true none 100 50 [] =
      ⟨keptCols (dailyCols none), []⟩ ∧
    gpsSummariesShape true false none 100 50 [] = ⟨hourlyCols none, []⟩ := by
  exact ⟨window_count_and_empty_schema.2.2.2.2.2 none 100 50 [] (by decide),
         window_count_and_empty_schema.2.2.2.1 false none 100 50 [] (by decide)⟩

/-- C7, counterexample: on three collinear pauses (centroids seeded at 0 and
8 meters, then a pause at 3.5 meters lying within 5 meters of both), the
source adds the dwell of the third pause to BOTH clusters, while the
nearest-cluster-only rule of the claim adds it to the first cluster alone,
so the resulting cluster lists differ.  The distances are realizable by
great-circle distance (points on a single meridian). -/
theorem cluster_merge_not_nearest_only :
    buildClusters lineDist 1000 0 overlapPauses ≠
      buildClustersClaim lineDist 1000 0 overlapPauses := by
  have s1 : clusterStep lineDist 1000 0 [] ⟨2, 0, 0, 0, 0, 0, 600, 1⟩ =
      [⟨0, 0, 10⟩] := by
    norm_num [clusterStep, lineDist, abs_of_nonneg]
  have s2 : clusterStep lineDist 1000 0 [⟨0, 0, 10⟩] ⟨2, 8, 0, 600, 8, 0, 1200, 1⟩ =
      [⟨0, 0, 10⟩, ⟨8, 0, 10⟩] := by
    norm_num [clusterStep, lineDist, List.all_cons, abs_of_nonneg]
  have s3 : clusterStep lineDist 1000 0 [⟨0, 0, 10⟩, ⟨8, 0, 10⟩] midSeg =
      [⟨0, 0, 15⟩, ⟨8, 0, 15⟩] := by
    norm_num [clusterStep, lineDist, midSeg, List.all_cons, abs_of_nonneg]
  have n3 : nearestStep lineDist 1000 0 [⟨0, 0, 10⟩, ⟨8, 0, 10⟩] midSeg =
      [⟨0, 0, 15⟩, ⟨8, 0, 10⟩] := by
    norm_num [nearestStep, lineDist, midSeg, List.all_cons, minCentroidDist,
      addToFirstMin, min_def, abs_of_nonneg]
  have n1 : nearestStep lineDist 1000 0 [] ⟨2, 0, 0, 0, 0, 0, 600, 1⟩ =
      [⟨0, 0, 10⟩] := by
    norm_num [nearestStep, lineDist, abs_of_nonneg]
  have n2 : nearestStep lineDist 1000 0 [⟨0, 0, 10⟩] ⟨2, 8, 0, 600, 8, 0, 1200, 1⟩ =
      [⟨0, 0, 10⟩, ⟨8, 0, 10⟩] := by
    norm_num [nearestStep, lineDist, List.all_cons, abs_of_nonneg]
  have hb : buildClusters lineDist 1000 0 overlapPauses =
      [⟨0, 0, 15⟩, ⟨8, 0, 15⟩] := by
    rw [buildClusters, overlapPauses, List.foldl_cons, s1, List.foldl_cons, s2,
      List.foldl_cons]
    rw [show (⟨2, 7/2, 0, 1200, 7/2, 0, 1500, 1⟩ : Seg) = midSeg from rfl, s3,
      List.foldl_nil]
  have hc : buildClustersClaim lineDist 1000 0 overlapPauses =
      [⟨0, 0, 15⟩, ⟨8, 0, 10⟩] := by
    rw [buildClustersClaim, overlapPauses, List.foldl_cons, n1, List.foldl_cons,
      n2, List.foldl_cons]
    rw [show (⟨2, 7/2, 0, 1200, 7/2, 0, 1500, 1⟩ : Seg) = midSeg from rfl, n3,
      List.foldl_nil]
  rw [hb, hc]
  intro hcontra
  have := List.cons.injEq _ _ _ _ ▸ hcontra
  simp only [List.cons.injEq] at hcontra
  have h15 : (15 : ℚ) = 10 := congrArg Cluster.dwell hcontra.2.1
  norm_num at h15

/-- C7, amended: the clustering loop of the source skips pauses within 5
meters of home, seeds a cluster from the first surviving pause, seeds a new
cluster when every existing centroid is farther than 5 meters, and
otherwise adds the dwell minutes to EVERY cluster whose centroid is within
5 meters (not only the nearest); being a fold over the pauses in segment
order, the assignment is deterministic. -/
theorem cluster_step_amended (dist : ℚ → ℚ → ℚ → ℚ → ℚ) (homeX homeY : ℚ)
    (acc : List Cluster) (s : Seg) :
    (dist s.x0 s.y0 homeX homeY ≤ 5 →
      clusterStep dist homeX homeY acc s = acc) ∧
    (dist s.x0 s.y0 homeX homeY > 5 → acc = [] →
      clusterStep dist homeX homeY acc s =
        [⟨s.x0, s.y0, (s.t1 - s.t0) / 60⟩]) ∧
    (dist s.x0 s.y0 homeX homeY > 5 →
      (∀ c ∈ acc, dist s.x0 s.y0 c.x c.y > 5) →
      clusterStep dist homeX homeY acc s =
        acc ++ [⟨s.x0, s.y0, (s.t1 - s.t0) / 60⟩]) ∧
    (dist s.x0 s.y0 homeX homeY > 5 →
      (∃ c ∈ acc, dist s.x0 s.y0 c.x c.y ≤ 5) →
      clusterStep dist homeX homeY acc s =
        acc.map (fun c =>
          if dist s.x0 s.y0 c.x c.y ≤ 5 then
            { c with dwell := c.dwell + (s.t1 - s.t0) / 60 } else c)) ∧
    buildClusters dist homeX homeY [] = [] := by
  refine ⟨?_, ?_, ?_, ?_, rfl⟩
  · intro h
    have h2 : ¬ dist s.x0 s.y0 homeX homeY > 5 := not_lt.mpr h
    simp [clusterStep, h2]
  · intro h h2
    subst h2
    simp [clusterStep, h]
  · intro h hall
    rcases eq_or_ne acc [] with rfl | hne
    · simp [clusterStep, h]
    · have hempty : acc.isEmpty = false := by
        simpa [List.isEmpty_iff] using hne
      have hb : acc.all (fun c => decide (dist s.x0 s.y0 c.x c.y > 5)) = true := by
        simp only [List.all_eq_true, decide_eq_true_eq]
        exact hall
      simp [clusterStep, h, hempty, hb]
  · intro h hex
    obtain ⟨c0, hc0, hle⟩ := hex
    have hne : acc ≠ [] := by
      intro hnil
      subst hnil
      simp at hc0
    have hempty : acc.isEmpty = false := by
      simpa [List.isEmpty_iff] using hne
    have hb : acc.all (fun c => decide (dist s.x0 s.y0 c.x c.y > 5)) = false := by
      refine List.all_eq_false.mpr ⟨c0, hc0, ?_⟩
      simp [not_lt.mpr hle]
    simp [clusterStep, h, hempty, hb]

/-- Witness for `cluster_step_amended`: the merge case at the concrete
configuration of `cluster_merge_not_nearest_only`, where both existing
clusters receive the five dwell minutes of the pause at 3.5 meters. -/
theorem cluster_step_amended_witness :
    clusterStep lineDist 1000 0 [⟨0, 0, 10⟩, ⟨8, 0, 10⟩] midSeg =
      [⟨0, 0, 15⟩, ⟨8, 0, 15⟩] := by
  have h := (cluster_step_amended lineDist 1000 0 [⟨0, 0, 10⟩, ⟨8, 0, 10⟩]
    midSeg).2.2.2.1 (by norm_num [lineDist, midSeg, abs_of_nonneg])
    ⟨⟨0, 0, 10⟩, by simp, by norm_num [lineDist, midSeg, abs_of_nonneg]⟩
  rw [h]
  norm_num [lineDist, midSeg, abs_of_nonneg]

/-- C8: merging the Day and Night halves of one calendar day (daily schema,
no place columns): every non-identifying column appears once with the
`_datetime` suffix and once with the `_nighttime` suffix, the four
`obs_day` / `obs_night` columns are gone, and a single combined
`obs_duration` column holding the sum of the two halves is inserted after
the identifying columns; in particular Day `obs_duration = 5` and Night
`obs_duration = 3` combine to 8. -/
theorem day_night_merge_correct
    (y m d od oday onight ht dt mdh ra di ns en tft afl sfl afd sfd tpt apd
     spd y2 m2 d2 od2 oday2 onight2 ht2 dt2 mdh2 ra2 di2 ns2 en2 tft2 afl2
     sfl2 afd2 sfd2 tpt2 apd2 spd2 : Val) :
    mergeDayNight ⟨dailyCols none,
      [[y, m, d, od, oday, onight, ht, dt, mdh, ra, di, ns, en, tft, afl, sfl,
        afd, sfd, tpt, apd, spd],
       [y2, m2, d2, od2, oday2, onight2, ht2, dt2, mdh2, ra2, di2, ns2, en2,
        tft2, afl2, sfl2, afd2, sfd2, tpt2, apd2, spd2]]⟩ =
      ⟨["year", "month", "day", "obs_duration",
        "obs_duration_datetime", "home_time_datetime", "dist_traveled_datetime",
        "max_dist_home_datetime", "radius_datetime", "diameter_datetime",
        "num_sig_places_datetime", "entropy_datetime",
        "total_flight_time_datetime", "av_flight_length_datetime",
        "sd_flight_length_datetime", "av_flight_duration_datetime",
        "sd_flight_duration_datetime", "total_pause_time_datetime",
        "av_pause_duration_datetime", "sd_pause_duration_datetime",
        "obs_duration_nighttime", "home_time_nighttime",
        "dist_traveled_nighttime", "max_dist_home_nighttime",
        "radius_nighttime", "diameter_nighttime", "num_sig_places_nighttime",
        "entropy_nighttime", "total_flight_time_nighttime",
        "av_flight_length_nighttime", "sd_flight_length_nighttime",
        "av_flight_duration_nighttime", "sd_flight_duration_nighttime",
        "total_pause_time_nighttime", "av_pause_duration_nighttime",
        "sd_pause_duration_nighttime"],
       [[y, m, d, addVal od od2,
         od, ht, dt, mdh, ra, di, ns, en, tft, afl, sfl, afd, sfd, tpt, apd,
         spd, od2, ht2, dt2, mdh2, ra2, di2, ns2, en2, tft2, afl2, sfl2, afd2,
         sfd2, tpt2, apd2, spd2]]⟩ ∧
    addVal (Val.num 5) (Val.num 3) = Val.num 8 := by
  constructor
  · rfl
  · show Val.num (5 + 3) = Val.num 8
    norm_num

/-- Every dwell kept by the significance filter exceeds 900 seconds. -/
theorem sigFilter_mem_gt {txy : List ℚ} {t : ℚ} (h : t ∈ sigFilter txy) :
    900 < t := by
  have h1 := List.of_mem_filter h
  have h2 : t / 60 > 15 := of_decide_eq_true h1
  linarith

/-- Casting a list sum from the rationals to the reals. -/
theorem list_sum_cast (l : List ℚ) :
    ((l.sum : ℚ) : ℝ) = (l.map (fun t : ℚ => ((t : ℚ) : ℝ))).sum := by
  induction l with
  | nil => simp
  | cons a l ih => push_cast [List.sum_cons, ih]; simp

/-- Multiplying each mapped element by a constant scales the list sum. -/
theorem list_sum_map_mul_const (l : List ℚ) (f : ℚ → ℝ) (c : ℝ) :
    (l.map (fun t => f t * c)).sum = (l.map f).sum * c := by
  induction l with
  | nil => simp
  | cons a l ih => simp [ih, add_mul]

/-- Dividing each mapped element by a constant scales the list sum. -/
theorem list_sum_map_div (l : List ℚ) (T : ℝ) :
    (l.map (fun t : ℚ => ((t : ℚ) : ℝ) / T)).sum =
      (l.map (fun t : ℚ => ((t : ℚ) : ℝ))).sum / T := by
  induction l with
  | nil => simp
  | cons a l ih => simp [ih, add_div]

/-- The entropy expression with the let bindings of the definition spelled
out. -/
theorem entropyOf_eq (txy : List ℚ) :
    entropyOf txy = Neg.neg (((sigFilter txy).map (fun t =>
      ((t : ℚ) : ℝ) / (((sigFilter txy).sum : ℚ) : ℝ) *
      Real.log (((t : ℚ) : ℝ) / (((sigFilter txy).sum : ℚ) : ℝ) +
        1 / 100000))).sum) := rfl

/-- The summed term of the entropy is bounded by the logarithm of
`1 + 1e-5` whenever every filtered dwell exceeds 900. -/
theorem entropy_sum_le (s : List ℚ) (hs : ∀ t ∈ s, 900 < t) :
    ((s.map (fun t => ((t : ℚ) : ℝ) / ((s.sum : ℚ) : ℝ) *
        Real.log (((t : ℚ) : ℝ) / ((s.sum : ℚ) : ℝ) + 1 / 100000))).sum) ≤
      Real.log (1 + 1 / 100000) := by
  rcases eq_or_ne s [] with rfl | hne
  · simpa using Real.log_nonneg (by norm_num)
  · have hpos : ∀ t ∈ s, (0 : ℚ) < t := fun t ht =>
      lt_trans (by norm_num) (hs t ht)
    have hsumpos : (0 : ℚ) < s.sum := List.sum_pos s hpos hne
    have hTpos : (0 : ℝ) < ((s.sum : ℚ) : ℝ) := by exact_mod_cast hsumpos
    have step : ∀ t ∈ s,
        ((t : ℚ) : ℝ) / ((s.sum : ℚ) : ℝ) *
          Real.log (((t : ℚ) : ℝ) / ((s.sum : ℚ) : ℝ) + 1 / 100000) ≤
        ((t : ℚ) : ℝ) / ((s.sum : ℚ) : ℝ) * Real.log (1 + 1 / 100000) := by
      intro t ht
      have h0 : (0 : ℝ) ≤ ((t : ℚ) : ℝ) / ((s.sum : ℚ) : ℝ) :=
        div_nonneg (by exact_mod_cast (hpos t ht).le) hTpos.le
      have h1 : ((t : ℚ) : ℝ) / ((s.sum : ℚ) : ℝ) ≤ 1 := by
        rw [div_le_one hTpos]
        exact_mod_cast List.single_le_sum (fun x hx => (hpos x hx).le) t ht
      refine mul_le_mul_of_nonneg_left ?_ h0
      refine Real.log_le_log (by linarith) (by linarith)
    calc ((s.map (fun t => ((t : ℚ) : ℝ) / ((s.sum : ℚ) : ℝ) *
            Real.log (((t : ℚ) : ℝ) / ((s.sum : ℚ) : ℝ) + 1 / 100000))).sum)
        ≤ (s.map (fun t => ((t : ℚ) : ℝ) / ((s.sum : ℚ) : ℝ) *
            Real.log (1 + 1 / 100000))).sum := List.sum_le_sum step
      _ = ((s.map (fun t : ℚ => ((t : ℚ) : ℝ) / ((s.sum : ℚ) : ℝ))).sum) *
            Real.log (1 + 1 / 100000) := list_sum_map_mul_const s _ _
      _ = (((s.map (fun t : ℚ => ((t : ℚ) : ℝ))).sum) / ((s.sum : ℚ) : ℝ)) *
            Real.log (1 + 1 / 100000) := by rw [list_sum_map_div]
      _ = ((((s.sum : ℚ) : ℝ)) / ((s.sum : ℚ) : ℝ)) *
            Real.log (1 + 1 / 100000) := by rw [list_sum_cast]
      _ = Real.log (1 + 1 / 100000) := by
            rw [div_self hTpos.ne']
            ring

/-- C3, counterexample: a single significant cluster (dwell 1000 seconds,
more than 15 minutes) makes the probability vector `[1]`, and the computed
entropy is `-log(1 + 1e-5)`, which is strictly negative, so the entropy is
neither nonnegative nor zero for exactly one significant place. -/
theorem entropy_single_cluster_neg : entropyOf [1000] < 0 := by
  have h1 : sigFilter [1000] = [1000] := by
    norm_num [sigFilter, List.filter_cons]
  have h2 : (([1000] : List ℚ).sum : ℚ) = 1000 := by norm_num
  rw [entropyOf_eq, h1, h2]
  have h3 : ((1000 : ℚ) : ℝ) / ((1000 : ℚ) : ℝ) = 1 := by norm_num
  simp only [List.map_cons, List.map_nil, List.sum_cons, List.sum_nil, h3]
  have h4 : (0 : ℝ) < Real.log (1 + 1 / 100000) := Real.log_pos (by norm_num)
  simp only [one_mul, add_zero]
  linarith

/-- C3, amended: the computed significant-place entropy is always at least
`-log(1 + 1e-5)` (about `-1e-5`, slightly below zero because the additive
constant sits inside the logarithm), and it equals exactly `-log(1 + 1e-5)`
whenever exactly one cluster passes the 15-minute significance filter. -/
theorem entropy_lower_bound_amended :
    (forall txy : List ℚ, -Real.log (1 + 1 / 100000) ≤ entropyOf txy) ∧
    (forall txy : List ℚ, numSig txy = 1 →
      entropyOf txy = -Real.log (1 + 1 / 100000)) := by
  constructor
  · intro txy
    rw [entropyOf_eq]
    have key := entropy_sum_le (sigFilter txy)
      (fun t ht => sigFilter_mem_gt ht)
    exact neg_le_neg key
  · intro txy h1
    have h2 : (sigFilter txy).length = 1 := h1
    obtain ⟨t, ht⟩ := List.length_eq_one.mp h2
    have htmem : t ∈ sigFilter txy := by
      rw [ht]
      exact List.mem_singleton_self t
    have ht900 := sigFilter_mem_gt htmem
    have htne : ((t : ℚ) : ℝ) ≠ 0 := by
      have hq : (0 : ℚ) < t := by linarith
      exact_mod_cast hq.ne'
    have hsum : (([t] : List ℚ).sum : ℚ) = t := by simp
    rw [entropyOf_eq, ht, hsum]
    simp only [List.map_cons, List.map_nil, List.sum_cons, List.sum_nil,
      add_zero]
    rw [div_self htne]
    simp

/-- Witness for `entropy_lower_bound_amended`: the bound at the dwell list
`[300]` (no significant cluster) and the exact value at `[1000]` (one
significant cluster). -/
theorem entropy_lower_bound_amended_witness :
    -Real.log (1 + 1 / 100000) ≤ entropyOf [300] ∧
    entropyOf [1000] = -Real.log (1 + 1 / 100000) := by
  refine ⟨entropy_lower_bound_amended.1 [300],
    entropy_lower_bound_amended.2 [1000] ?_⟩
  norm_num [numSig, sigFilter, List.filter_cons]

end Traj2Stats
